import Mathlib

/-!
Verification development for the c2chapel translator
(`src/tools/c2chapel/c2chapel.py`), a tool that turns a pycparser
declaration tree for a C header into Chapel `extern` binding declarations.

The Python source is shallowly embedded below.  Conventions:

* pycparser AST nodes are modelled by the mutually inductive types
  `CType` / `CInner` / `CField` / `CParam` (the `...Ext` variants of
  pycparserext are merged with their base constructors, exactly as the
  Python code treats them interchangeably).
* A Python `str`-or-`None` value is an `Option String` (`none` = Python
  `None`); Python exceptions (`ParseError`, `AttributeError` on a missing
  `quals` attribute, `TypeError` on `str + None` concatenation,
  `RecursionError`) are modelled with `Except String`.
* Every `print(...)` performed by the translator is recorded as an `Out`
  item: `Out.decl` for printed declaration text, `Out.comment` for
  `genComment` payloads (the default `--no-comments=off` configuration),
  `Out.blank` for empty `print()` calls and `Out.raw` for the bare
  `/*` and `*/` lines around ignored typedefs.
-/

deriving instance DecidableEq for Except

namespace C2Chapel

/-- Output items produced by the translator's print calls. -/
inductive Out where
  | decl (s : String)
  | comment (s : String)
  | blank
  | raw (s : String)
deriving DecidableEq, Repr

/-- Test for a printed declaration (as opposed to a comment or blank line). -/
def Out.isDecl : Out → Bool
  | .decl _ => true
  | _ => false

mutual
/-- Embedding of the pycparser type nodes used by c2chapel:
`TypeDecl` (with its `declname` and `quals`), `PtrDecl` (with `quals`),
`ArrayDecl` (which has no `quals` attribute, only `dim_quals`; the
dimension is never read by c2chapel and is omitted) and `FuncDecl`. -/
inductive CType where
  | typeDecl (declname : Option String) (quals : List String) (inner : CInner)
  | ptrDecl (quals : List String) (ty : CType)
  | arrayDecl (ty : CType)
  | funcDecl (args : Option (List CParam)) (ret : CType)

/-- Nodes that occur under a `TypeDecl`: `IdentifierType` (a list of
names, joined with spaces by `getDeclName`), `Struct`/`Union` (merged,
with an `isUnion` flag, optional tag name and optional field list) and
`Enum` (optional name plus enumerator names). -/
inductive CInner where
  | ident (names : List String)
  | su (isUnion : Bool) (name : Option String) (decls : Option (List CField))
  | enum (name : Option String) (values : List String)

/-- Members of a struct/union field list: a `c_ast.Decl` with a field
name and type, or a `c_ast.Pragma`. -/
inductive CField where
  | fieldDecl (name : String) (ty : CType)
  | pragma

/-- Entries of a `c_ast.ParamList`: named `Decl` parameters, abstract
`Typename` parameters and the `EllipsisParam`. -/
inductive CParam where
  | pdecl (name : String) (ty : CType)
  | ptypename (ty : CType)
  | ellipsis
end

/-- The string appended for `...` parameters (`VARARGS_STR`). -/
def VARARGS_STR : String := "c__varargs ..."

/-- The set of Chapel keywords (`chapelKeywords` in the source). -/
def chapelKeywords : List String :=
  ["align", "as", "atomic", "begin", "break", "by", "class",
   "cobegin", "coforall", "config", "const", "continue", "delete", "dmapped", "do",
   "domain", "else", "enum", "except", "export", "extern", "for", "forall", "if",
   "in", "index", "inline", "inout", "iter", "label", "lambda", "let", "local", "module", "new",
   "nil", "noinit", "on", "only", "otherwise", "out", "param", "private", "proc",
   "public", "record", "reduce", "ref", "require", "return", "scan", "select",
   "serial", "sparse", "subdomain", "sync", "then", "type", "union", "use",
   "var", "when", "where", "while", "with", "yield", "zip", "string", "bytes", "locale"]

/-- The final contents of the global `c2chapel` dictionary of C to Chapel
primitive type mappings, after the two registration loops have run: the
`"... int"` aliases added for every key ending in `"long"`, and the
fixed-width `intN_t`/`uintN_t` entries for N = 8, 16, 32, 64. -/
def c2chapel : List (String × String) :=
  [("double", "c_double"),
   ("float", "c_float"),
   ("char", "c_char"),
   ("void", ""),
   ("int", "c_int"),
   ("unsigned", "c_uint"),
   ("unsigned int", "c_uint"),
   ("long", "c_long"),
   ("unsigned long", "c_ulong"),
   ("long long", "c_longlong"),
   ("unsigned long long", "c_ulonglong"),
   ("signed char", "c_schar"),
   ("unsigned char", "c_uchar"),
   ("short", "c_short"),
   ("unsigned short", "c_ushort"),
   ("intptr_t", "c_intptr"),
   ("uintptr_t", "c_uintptr"),
   ("ptrdiff_t", "c_ptrdiff"),
   ("ssize_t", "c_ssize_t"),
   ("size_t", "c_size_t"),
   ("wchar_t", "c_wchar_t"),
   ("long double", "c_longlong"),
   ("signed short", "c_short"),
   ("signed int", "c_int"),
   ("signed long long", "c_longlong"),
   ("signed long", "c_long"),
   ("FILE", "c_FILE"),
   ("long int", "c_long"),
   ("unsigned long int", "c_ulong"),
   ("long long int", "c_longlong"),
   ("unsigned long long int", "c_ulonglong"),
   ("signed long long int", "c_longlong"),
   ("signed long int", "c_long"),
   ("int8_t", "int(8)"),
   ("uint8_t", "uint(8)"),
   ("int16_t", "int(16)"),
   ("uint16_t", "uint(16)"),
   ("int32_t", "int(32)"),
   ("uint32_t", "uint(32)"),
   ("int64_t", "int(64)"),
   ("uint64_t", "uint(64)")]

/-- Dictionary lookup in the `c2chapel` registry. -/
def c2chapelGet (n : String) : Option String :=
  (c2chapel.find? (fun p => p.1 == n)).map (·.2)

/-- The `" ".join(inner.names)` step of `getDeclName` for `IdentifierType`. -/
def joinNames (ns : List String) : String := String.intercalate " " ns

/-- The `getDeclName` dispatch on the node found under a `TypeDecl`:
`IdentifierType` joins its names, `Struct`/`Union` yield their (possibly
`None`) tag name, `Enum` yields the literal string `"c_int"`. -/
def getDeclNameInner : CInner → Option String
  | .ident ns => some (joinNames ns)
  | .su _ n _ => n
  | .enum _ _ => some "c_int"

/-- Embedding of `isPointerTo(ty, text)`: `ty` is a `PtrDecl` whose inner
node is a `TypeDecl` whose `getDeclName` equals `text`. -/
def isPointerTo (ty : CType) (text : String) : Bool :=
  match ty with
  | .ptrDecl _ (.typeDecl _ _ i) => getDeclNameInner i == some text
  | _ => false

/-- Reading the `.quals` attribute of a node.  `TypeDecl` and `PtrDecl`
have one; `ArrayDecl` and `FuncDecl` do not, so the Python access raises
an `AttributeError`. -/
def qualsOf : CType → Except String (List String)
  | .typeDecl _ q _ => .ok q
  | .ptrDecl q _ => .ok q
  | .arrayDecl _ => .error "AttributeError: ArrayDecl object has no attribute quals"
  | .funcDecl _ _ => .error "AttributeError: FuncDecl object has no attribute quals"

/-- Concatenating a Python string that may be `None`: `str + None`
raises a `TypeError`. -/
def expectStr : Option String → Except String String
  | some s => .ok s
  | none => .error "TypeError: can only concatenate str (not NoneType) to str"

/-- Embedding of `toChapelType`.  Result `.ok (some s)` is the Python
string `s`, `.ok none` is Python `None` (returned for a `TypeDecl` whose
`getDeclName` is `None`, i.e. an anonymous struct/union, and propagated
by the `ArrayDecl` branch), `.error` is a raised exception.  The branch
structure and evaluation order (recursive element type first, then the
`quals` attribute access, then the concatenation) follow the source. -/
def toChapelType : CType → Except String (Option String)
  | .ptrDecl pq t =>
    if isPointerTo (.ptrDecl pq t) "char" then
      match qualsOf t with
      | .error e => .error e
      | .ok q =>
        .ok (some (if q.contains "const" then "c_ptrConst(" ++ "c_char" ++ ")"
                   else "c_ptr(" ++ "c_char" ++ ")"))
    else
      match t with
      | .funcDecl _ _ => .ok (some "c_fn_ptr")
      | _ =>
        match (if isPointerTo (.ptrDecl pq t) "void" then .ok (some "void")
               else toChapelType t) with
        | .error e => .error e
        | .ok elt =>
          match qualsOf t with
          | .error e => .error e
          | .ok q =>
            match elt with
            | none => .error "TypeError: can only concatenate str (not NoneType) to str"
            | some s =>
              .ok (some (if q.contains "const" then "c_ptrConst(" ++ s ++ ")"
                         else "c_ptr(" ++ s ++ ")"))
  | .arrayDecl t =>
    match toChapelType t with
    | .error e => .error e
    | .ok none => .ok none
    | .ok (some elt) =>
      match t with
      | .arrayDecl _ => .ok (some elt)
      | _ =>
        match qualsOf t with
        | .error e => .error e
        | .ok q =>
          .ok (some (if q.contains "const" then "c_ptrConst(" ++ elt ++ ")"
                     else "c_ptr(" ++ elt ++ ")"))
  | .typeDecl _ _ i =>
    match getDeclNameInner i with
    | none => .ok none
    | some n => .ok (some ((c2chapelGet n).getD n))
  | .funcDecl _ _ => .ok (some "c_fn_ptr")

/-- A typedef node (`c_ast.Typedef`): its name and its `.type` child. -/
structure Typedef where
  name : String
  ty : CType

/-- The global `typeDefs` dictionary: an insertion-ordered association
list from typedef name to the node, where the value `none` is the
Python `None` sentinel stored for pruned/ignored entries. -/
abbrev Tds := List (String × Option Typedef)

/-- Python `name in typeDefs` / `typeDefs[name]` lookup. -/
def tdsFind? (tds : Tds) (n : String) : Option (Option Typedef) :=
  ((tds : List (String × Option Typedef)).find? (fun p => p.1 == n)).map (·.2)

/-- Python `typeDefs[k] = v` on the association list: overwrite the
existing binding or append a new one. -/
def tdsSet (tds : Tds) (k : String) (v : Option Typedef) : Tds :=
  match (tds : List (String × Option Typedef)) with
  | [] => [(k, v)]
  | p :: rest => if p.1 == k then (k, v) :: rest else p :: tdsSet rest k v

/-- The CPython recursion limit, standing in for the point at which an
unboundedly recursive chain of typedefs raises `RecursionError`. -/
def recursionLimit : Nat := 1000

/-- Embedding of `isStructOrUnionType` for type nodes (the function is
also applied to bare `Struct`/`Union` nodes by
`isStructOrUnionForwardDeclared`, where it is constantly `True`; that
use is inlined at its call site).  An `IdentifierType` name found in
`typeDefs` recurses into the typedef's type; a name bound to the `None`
sentinel makes Python dereference `None.type` and raise. -/
def isStructOrUnionType (tds : Tds) : Nat → CType → Except String Bool
  | 0, _ => .error "RecursionError: maximum recursion depth exceeded"
  | fuel + 1, t =>
    match t with
    | .typeDecl _ _ i =>
      match i with
      | .ident ns =>
        match tdsFind? tds (joinNames ns) with
        | some (some td) => isStructOrUnionType tds fuel td.ty
        | some none => .error "AttributeError: NoneType object has no attribute type"
        | none => .ok false
      | .su _ _ _ => .ok true
      | .enum _ _ => .ok false
    | _ => .ok false

/-- Python truthiness of a `str`-or-`None` value. -/
def strTruthy : Option String → Bool
  | none => false
  | some s => !(s == "")

/-- Embedding of `getIntentInfo`, returning `(refIntent, retType,
ptrType)`.  For a non-pointer type, `ptrType` stays the initial Python
`""`.  Pointers to `unsigned char`, `char`, `void` and function pointers
are excluded from the `ref`-intent branch, in which case `curType` is
not advanced and `retType` recomputes `toChapelType` of the whole
pointer (the same value as `ptrType`). -/
def getIntentInfo (ty : CType) : Except String (String × Option String × Option String) :=
  match ty with
  | .ptrDecl pq t =>
    match toChapelType (.ptrDecl pq t) with
    | .error e => .error e
    | .ok ptrType =>
      if !(isPointerTo (.ptrDecl pq t) "unsigned char" || isPointerTo (.ptrDecl pq t) "char" ||
           isPointerTo (.ptrDecl pq t) "void" || ptrType == some "c_fn_ptr") then
        if strTruthy ptrType then
          match qualsOf t with
          | .error e => .error e
          | .ok q =>
            let refIntent := (if q.contains "const" then "const " else "") ++ "ref"
            match toChapelType t with
            | .error e => .error e
            | .ok retType => .ok (refIntent, retType, ptrType)
        else
          match toChapelType t with
          | .error e => .error e
          | .ok retType => .ok ("ref", retType, ptrType)
      else
        .ok ("", ptrType, ptrType)
  | t =>
    match toChapelType t with
    | .error e => .error e
    | .ok retType => .ok ("", retType, some "")

/-- Embedding of `computeArgName`: `Typename` parameters get the empty
name, `Decl` parameters get their name, suffixed with `_arg` when it is
a Chapel keyword.  `computeArgs` never reaches the raising branch
because `EllipsisParam` is filtered out before the call. -/
def computeArgName : CParam → Except String String
  | .ptypename _ => .ok ""
  | .pdecl n _ => .ok (if chapelKeywords.contains n then n ++ "_arg" else n)
  | .ellipsis => .error "ParseError: Unhandled Node type"

/-- The `.type` attribute of a (non-ellipsis) parameter. -/
def paramTy : CParam → Option CType
  | .pdecl _ t => some t
  | .ptypename t => some t
  | .ellipsis => none

/-- The per-parameter loop of `computeArgs`, producing the `formals` and
`ptrFormals` lists (joined with `", "` by `computeArgs` itself); `i` is
the running `enumerate` index used for placeholder argument names. -/
def computeArgsLists (tds : Tds) : List CParam → Nat → Except String (List String × List String)
  | [], _ => .ok ([], [])
  | .ellipsis :: rest, i =>
    match computeArgsLists tds rest (i + 1) with
    | .error e => .error e
    | .ok (f, pf) => .ok (VARARGS_STR :: f, VARARGS_STR :: pf)
  | p :: rest, i =>
    match paramTy p with
    | none => .error "AttributeError: EllipsisParam object has no attribute type"
    | some pty =>
      match getIntentInfo pty with
      | .error e => .error e
      | .ok (intent0, typeName, ptrTypeName) =>
        match computeArgName p with
        | .error e => .error e
        | .ok argName0 =>
          if typeName == some "" then
            computeArgsLists tds rest (i + 1)
          else
            match (if intent0 == "" then
                     match isStructOrUnionType tds recursionLimit pty with
                     | .error e => .error e
                     | .ok b => .ok (if b then "in " else "")
                   else .ok (intent0 ++ " ") : Except String String) with
            | .error e => .error e
            | .ok intent =>
              let argName := if argName0 == "" then "arg" ++ toString i else argName0
              match expectStr typeName with
              | .error e => .error e
              | .ok tn =>
                match (if ptrTypeName != some "" then
                         match expectStr ptrTypeName with
                         | .error e => .error e
                         | .ok ptn => .ok (argName ++ " : " ++ ptn)
                       else .ok (intent ++ argName ++ " : " ++ tn) : Except String String) with
                | .error e => .error e
                | .ok ptrEntry =>
                  match computeArgsLists tds rest (i + 1) with
                  | .error e => .error e
                  | .ok (f, pf) =>
                    .ok ((intent ++ argName ++ " : " ++ tn) :: f, ptrEntry :: pf)

/-- Embedding of `computeArgs`: `None` parameter lists give two empty
strings; otherwise the two formal lists are joined with `", "`. -/
def computeArgs (tds : Tds) : Option (List CParam) → Except String (String × String)
  | none => .ok ("", "")
  | some ps =>
    match computeArgsLists tds ps 0 with
    | .error e => .error e
    | .ok (f, pf) => .ok (String.intercalate ", " f, String.intercalate ", " pf)

/-- Embedding of `getFunctionName`: unwrap pointer and function layers
down to a `TypeDecl` and return its (possibly `None`) `declname`. -/
def getFunctionName : CType → Except String (Option String)
  | .ptrDecl _ t => getFunctionName t
  | .funcDecl _ r => getFunctionName r
  | .typeDecl dn _ _ => .ok dn
  | .arrayDecl _ => .error "ParseError: Expecting TypeDecl..."

/-- Python `str.split` on the fixed two-character separator `", "`
(`args.split(", ")` in `genFuncDecl`), written as structural recursion
over the character list: split at every non-overlapping occurrence,
scanning left to right.  (The Lean core `String.splitOn` has the same
semantics for this separator but is defined by well-founded recursion,
which the kernel cannot evaluate.) -/
def splitCommaSpace : List Char → List Char → List (List Char)
  | [], acc => [acc.reverse]
  | [c], acc => [(c :: acc).reverse]
  | ',' :: ' ' :: rest, acc => acc.reverse :: splitCommaSpace rest []
  | c :: rest, acc => splitCommaSpace rest (c :: acc)

/-- The `args.split(", ")` of `genFuncDecl`. -/
def argSplit (s : String) : List String :=
  (splitCommaSpace s.toList []).map (fun cs => String.mk cs)

/-- Word characters of the `re` module's `\b` boundary. -/
def isWordChar (c : Char) : Bool := c.isAlpha || c.isDigit || c == '_'

/-- Embedding of `re.match(r'.*: \bva_list\b', args)`: the argument
string contains `": va_list"` at some position after which the word
ends.  The leading `.*` and the boundary before `va_list` (preceded by
a space) make the anchored match equivalent to this substring search. -/
def vaListMatch (args : String) : Bool :=
  let cs := args.toList
  (List.range (cs.length + 1)).any (fun i =>
    let rest := cs.drop i
    (": va_list".toList).isPrefixOf rest &&
      (match rest.drop 9 with
       | [] => true
       | c :: _ => !isWordChar c))

/-- Embedding of `genFuncDecl`.  `fnType` and `fnArgs` are the `.type`
and `.args` children of the `FuncDecl` node.  Output lines record the
exact printed strings (each `print(x)` of a string that itself ends in
a newline shows a blank line after it in the real output; the trailing
`"\n"` inside the string is kept and no separate blank item is added,
mirroring the single `print` call). -/
def genFuncDecl (tds : Tds) (fnType : CType) (fnArgs : Option (List CParam)) :
    Except String (List Out) :=
  match toChapelType fnType with
  | .error e => .error e
  | .ok retType0 =>
    match getFunctionName fnType with
    | .error e => .error e
    | .ok fnName? =>
      match computeArgs tds fnArgs with
      | .error e => .error e
      | .ok (args, ptrArgs) =>
        if (match fnName? with | some n => chapelKeywords.contains n | none => false) then
          .ok [.comment ("Unable to generate function '" ++ fnName?.getD "" ++
                 "' because its name is a Chapel keyword"), .blank]
        else if vaListMatch args then
          match expectStr fnName? with
          | .error e => .error e
          | .ok n =>
            .ok [.comment ("Unable to generate function '" ++ n ++
                   "' due to va_list argument"), .blank]
        else
          match expectStr fnName? with
          | .error e => .error e
          | .ok n =>
            match expectStr (if retType0 == some "" then some "void" else retType0) with
            | .error e => .error e
            | .ok rt =>
              let l1 := Out.decl ("extern proc " ++ n ++ "(" ++ args ++ ") : " ++ rt ++ ";\n")
              let base := if ptrArgs != args then
                  [l1, Out.decl ("extern proc " ++ n ++ "(" ++ ptrArgs ++ ") : " ++ rt ++ ";\n")]
                else [l1]
              let listArgs := argSplit args
              if listArgs.getLast? == some VARARGS_STR then
                let newArgs := String.intercalate "," listArgs.dropLast
                .ok (base ++ [.comment "Overload for empty varargs",
                      .decl ("extern proc " ++ n ++ "(" ++ newArgs ++ ") : " ++ rt ++ ";\n")])
              else
                .ok base

/-- Embedding of `genVar`: a keyword name is prefixed with `c2chapel_`
and the variable is still emitted. -/
def genVar (name : String) (ty : CType) : Except String (List Out) :=
  let name1 := if chapelKeywords.contains name then "c2chapel_" ++ name else name
  match toChapelType ty with
  | .error e => .error e
  | .ok none => .error "TypeError: can only concatenate str (not NoneType) to str"
  | .ok (some t) => .ok [.decl ("extern var " ++ name1 ++ " : " ++ t ++ ";"), .blank]

/-- Embedding of `genEnum` for a top-level `Enum` node (the `type(decl)
== c_ast.Enum` guard always holds on this call path). -/
def genEnum (name? : Option String) (values : List String) : List Out :=
  [.comment (match name? with
             | some n => if n != "" then "Enum: " ++ n else "Enum: anonymous"
             | none => "Enum: anonymous")] ++
  values.map (fun v => Out.decl ("extern const " ++ v ++ " :c_int;")) ++ [.blank]

/-- The `Struct`/`Union` case of `getStructOrUnionDef`: a node with a
non-`None` field list is a definition. -/
def getSUInner : CInner → Option (Bool × Option String × List CField)
  | .su u n (some ds) => some (u, n, ds)
  | _ => none

/-- Embedding of `getStructOrUnionDef` on type nodes: dig through
`TypeDecl` and `PtrDecl` wrappers looking for a struct/union definition. -/
def getSUTy : CType → Option (Bool × Option String × List CField)
  | .typeDecl _ _ i => getSUInner i
  | .ptrDecl _ t => getSUTy t
  | .arrayDecl _ => none
  | .funcDecl _ _ => none

/-- Embedding of `getStructOrUnionDef` on a field `Decl` (a `Pragma`
falls through every branch to `None`). -/
def getSUField : CField → Option (Bool × Option String × List CField)
  | .fieldDecl _ t => getSUTy t
  | .pragma => none

/-- The `isStructOrUnionForwardDeclared` test applied to the
struct/union node itself: `isStructOrUnionType` is constantly `True`
there, so the test reduces to Python's falsiness of `node.decls`
(`None` or the empty list). -/
def suIsForward : Option (List CField) → Bool
  | none => true
  | some [] => true
  | some (_ :: _) => false

/-- Python `foundTypes.add(name)` on the set modelled as a list. -/
def addFound (found : List String) (n : String) : List String :=
  if found.contains n then found else found ++ [n]

/-- Diagnostic emitted when a field name is a Chapel keyword. -/
def kwFieldsMsg : String :=
  "Fields omitted because one or more of the identifiers is a Chapel keyword"

/-- Diagnostic emitted when a field's type resolves to Python `None`. -/
def anonSkipMsg : String :=
  "Anonymous union or struct was encountered within and skipped."

mutual
/-- Embedding of `genStructOrUnion`.  Arguments `isU`, `suName`,
`decls` are the struct/union node's class (union or not), tag name and
field list; `nm` and `isAnon` are the Python keyword arguments `name`
and `isAnon`; `found` is the global `foundTypes` set, threaded through
and returned (the function mutates it).  The returned list is the
sequence of prints.  The extra `fuel` argument makes the recursion
through nested struct/union definitions structural; it stands in for
the CPython recursion limit and is passed as `recursionLimit` at the
entry points (it only ever runs out on inputs far deeper than any real
header, where Python would raise `RecursionError`). -/
def genStructOrUnion : Nat → Bool → Option String → Option (List CField) → String →
    Bool → List String → Except String (List Out × List String)
  | 0, _, _, _, _, _, _ => .error "RecursionError: maximum recursion depth exceeded"
  | fuel + 1, isU, suName, decls, nm, isAnon, found =>
    if nm == "" && suName.isNone then .ok ([], found)
    else
      let name := if nm == "" then suName.getD "" else nm
      let isUnion := decls.isSome && isU
      if chapelKeywords.contains name then
        let sWord := if isUnion then "union" else "struct"
        .ok ([.comment ("Unable to generate " ++ sWord ++ " '" ++ name ++ "' " ++
               "because its name is a Chapel keyword"), .blank], found)
      else
        let header := (if isAnon then (if isUnion then "extern union " else "extern record ")
                       else (if isUnion then "extern \"union " ++ name ++ "\" union "
                             else "extern \"struct " ++ name ++ "\" record ")) ++ name ++ " \x7b"
        let found1 := addFound found name
        if suIsForward decls then .ok ([.blank], found1)
        else
          match decls with
          | none => .ok ([.blank], found1)
          | some fields =>
            match fieldLoop fuel fields found1 "" with
            | .error e => .error e
            | .ok (outs, found2, members, warnKw, warnSkip) =>
              let members1 := if members != "" then "\n" ++ members else members
              let ret := header ++ members1 ++ "\x7d\n"
              .ok (outs ++
                   (if warnKw then [Out.comment kwFieldsMsg] else []) ++
                   (if warnSkip then [Out.comment anonSkipMsg] else []) ++
                   [Out.decl ret], found2)

/-- The `for decl in structOrUnion.decls` loop of `genStructOrUnion`:
returns the nested prints, the updated `foundTypes`, the accumulated
`members` string and the two warning flags.  A `Pragma` breaks; a
keyword field name resets `members` to `""` and breaks; a field type
resolving to `None` keeps the accumulated `members` and breaks. -/
def fieldLoop : Nat → List CField → List String → String →
    Except String (List Out × List String × String × Bool × Bool)
  | 0, _, _, _ => .error "RecursionError: maximum recursion depth exceeded"
  | _ + 1, [], found, members => .ok ([], found, members, false, false)
  | fuel + 1, d :: rest, found, members =>
    match (match getSUField d with
           | some (u, n, ds) => genStructOrUnion fuel u n (some ds) "" false found
           | none => .ok ([], found)) with
    | .error e => .error e
    | .ok (nouts, found1) =>
      match d with
      | .pragma => .ok (nouts, found1, members, false, false)
      | .fieldDecl fname fty =>
        if chapelKeywords.contains fname then
          .ok (nouts, found1, "", true, false)
        else
          match toChapelType fty with
          | .error e => .error e
          | .ok none => .ok (nouts, found1, members, false, true)
          | .ok (some t) =>
            match fieldLoop fuel rest found1
                (members ++ "  var " ++ fname ++ " : " ++ t ++ ";\n") with
            | .error e => .error e
            | .ok (fouts, found2, m2, k, s) => .ok (nouts ++ fouts, found2, m2, k, s)
end

/-- Embedding of `genTypeAlias`: only `PtrDecl` and `TypeDecl` typedefs
are emitted; an empty resolved type produces the opaque form, a `None`
resolved type crashes at the string concatenation. -/
def genTypeAlias (td : Typedef) (found : List String) : Except String (List Out × List String) :=
  match td.ty with
  | .ptrDecl _ _ | .typeDecl _ _ _ =>
    match toChapelType td.ty with
    | .error e => .error e
    | .ok tn =>
      if tn == some "" then
        .ok ([.decl ("extern type " ++ td.name ++ ";"), .blank], addFound found td.name)
      else
        match expectStr tn with
        | .error e => .error e
        | .ok t =>
          .ok ([.decl ("extern type " ++ td.name ++ " = " ++ t ++ ";"), .blank],
               addFound found td.name)
  | _ => .ok ([], found)

/-- Embedding of `isPointerToStruct` (truthiness of the returned node). -/
def isPointerToStructB : CType → Bool
  | .ptrDecl _ (.typeDecl _ _ (.su false _ _)) => true
  | .ptrDecl _ t => isPointerToStructB t
  | _ => false

/-- Embedding of `isPointerToUnion` (truthiness of the returned node). -/
def isPointerToUnionB : CType → Bool
  | .ptrDecl _ (.typeDecl _ _ (.su true _ _)) => true
  | .ptrDecl _ t => isPointerToUnionB t
  | _ => false

/-- Embedding of `genTypeEnum`, called with the typedef's `TypeDecl`
node: one constant per enumerator, typed with the `declname`. -/
def genTypeEnum (tyd : CType) : Except String (List Out) :=
  match tyd with
  | .typeDecl dn _ (.enum _ vals) =>
    match vals with
    | [] => .ok [.blank]
    | _ =>
      match expectStr dn with
      | .error e => .error e
      | .ok d =>
        .ok ((vals.map (fun v => Out.decl ("extern const " ++ v ++ " :" ++ d ++ ";"))) ++
             [.blank])
  | _ => .ok []

/-- The body of the `genTypedefs` loop for one non-`None` entry,
following the source's branch order: struct/union alias first, then
pointer-to-struct, pointer-to-union, enum, and the plain-alias default. -/
def emitOneTypedef (td : Typedef) (found : List String) : Except String (List Out × List String) :=
  match td.ty with
  | .typeDecl _ _ (.su isU sn sdecls) =>
    match sdecls with
    | some ds => genStructOrUnion recursionLimit isU sn (some ds) td.name true found
    | none =>
      if !(match sn with | some s => (found.contains s : Bool) | none => false) then
        let sWord := if isU then "union" else "struct"
        .ok ([.comment ("Opaque " ++ sWord ++ "?"),
              .decl ((if isU then "extern union " else "extern record ") ++
                td.name ++ " \x7b\x7d;\n")], found)
      else genTypeAlias td found
  | t =>
    if isPointerToStructB t then
      .ok ([.comment "Typedef'd pointer to struct",
            .decl ("extern type " ++ td.name ++ ";\n")], found)
    else if isPointerToUnionB t then
      .ok ([.comment "Typedef'd pointer to union",
            .decl ("extern type " ++ td.name ++ ";\n")], found)
    else
      match t with
      | .typeDecl _ _ (.enum _ _) =>
        match genTypeEnum t with
        | .error e => .error e
        | .ok eouts =>
          .ok ([.comment (td.name ++ " enum"),
                .decl ("extern type " ++ td.name ++ " = c_int;")] ++ eouts, found)
      | _ => genTypeAlias td found

/-- The sorted key traversal of `genTypedefs` (`for name in
sorted(defs)`): Python's `sorted` on the dictionary's distinct string
keys is modelled with a stable insertion sort under `≤`. -/
def sortKeys (defs : Tds) : List String :=
  ((defs : List (String × Option Typedef)).map (·.1)).insertionSort (· ≤ ·)

/-- The per-name loop of `genTypedefs`, skipping `None` entries and
threading `foundTypes`. -/
def genTypedefsGo (defs : Tds) : List String → List String → Except String (List Out × List String)
  | [], found => .ok ([], found)
  | n :: rest, found =>
    match tdsFind? defs n with
    | some (some td) =>
      match emitOneTypedef td found with
      | .error e => .error e
      | .ok (outs, found1) =>
        match genTypedefsGo defs rest found1 with
        | .error e => .error e
        | .ok (outs2, found2) => .ok (outs ++ outs2, found2)
    | _ =>
      genTypedefsGo defs rest found

/-- Embedding of `genTypedefs`. -/
def genTypedefs (defs : Tds) (found : List String) : Except String (List Out × List String) :=
  genTypedefsGo defs (sortKeys defs) found

/-- The `for i in ignores` preprocessing of `handleTypedefs`: matching
entries are moved to `ignoreDefs` and nulled out in `defs`. -/
def splitIgnores (defs : Tds) (ignores : List String) : Tds × Tds :=
  ignores.foldl (fun (acc : Tds × Tds) i =>
    match tdsFind? acc.1 i with
    | some v => (tdsSet acc.1 i none, (acc.2 : List (String × Option Typedef)) ++ [(i, v)])
    | none => acc) (defs, ([] : Tds))

/-- Embedding of `handleTypedefs`: emit the surviving typedefs behind a
banner when any remain, then the ignored ones inside a comment block. -/
def handleTypedefs (defs : Tds) (ignores : List String) (found : List String) :
    Except String (List Out × List String) :=
  let s := splitIgnores defs ignores
  let defs1 := s.1
  let ignoreDefs := s.2
  let numDefs := ((defs1 : List (String × Option Typedef)).filter (fun p => p.2.isSome)).length
  match (if numDefs != 0 then
           match genTypedefs defs1 found with
           | .error e => .error e
           | .ok (o, f) => .ok ([Out.comment "==== c2chapel typedefs ====", Out.blank] ++ o, f)
         else .ok ([], found) : Except String (List Out × List String)) with
  | .error e => .error e
  | .ok (out1, found1) =>
    if (ignoreDefs : List (String × Option Typedef)).length != 0 then
      match genTypedefs ignoreDefs found1 with
      | .error e => .error e
      | .ok (o2, found2) =>
        .ok (out1 ++ [Out.comment "c2chapel thinks these typedefs are from the fake headers:",
              Out.raw "/*"] ++ o2 ++ [Out.raw "*/"], found2)
    else .ok (out1, found1)

/-- Characters of the `re` module's `\s` class. -/
def isSpaceChar (c : Char) : Bool :=
  c == ' ' || c == '\t' || c == '\n' || c == '\x0d' || c == '\x0b' || c == '\x0c'

/-- Characters of the `[_a-zA-Z0-9]` class used for macro names. -/
def isNameChar (c : Char) : Bool := c.isAlpha || c.isDigit || c == '_'

/-- Embedding of the `emit_defines` regular expression
`^\s*#define\s+([_a-zA-Z0-9]+)\s+[0-9]+$` applied to one line, returning
the captured macro name.  Greedy maximal munch is equivalent to the
regex here because adjacent pieces use disjoint character classes. -/
def matchDefine (line : String) : Option String :=
  let cs := line.toList.dropWhile isSpaceChar
  if ("#define".toList).isPrefixOf cs then
    let cs1 := cs.drop 7
    if (cs1.takeWhile isSpaceChar).isEmpty then none
    else
      let cs2 := cs1.dropWhile isSpaceChar
      let nm := cs2.takeWhile isNameChar
      if nm.isEmpty then none
      else
        let cs3 := cs2.dropWhile isNameChar
        if (cs3.takeWhile isSpaceChar).isEmpty then none
        else
          let cs4 := cs3.dropWhile isSpaceChar
          let dg := cs4.takeWhile Char.isDigit
          if dg.isEmpty then none
          else if (cs4.dropWhile Char.isDigit).isEmpty then some (String.mk nm)
          else none
  else none

/-- Embedding of `emit_defines` over the raw source lines (each line
taken without its trailing newline, which the regex's `$` ignores): the
two header comments are printed before the first matching line, one
constant is printed per matching line in file order, and a footer
follows when anything matched.  There is no deduplication. -/
def emit_defines (lines : List String) : List Out :=
  let names := lines.filterMap matchDefine
  if names.isEmpty then []
  else
    [Out.comment "#define'd integer literals:",
     Out.comment "Note: some of these may have been defined with an ifdef"] ++
    names.map (fun n => Out.decl ("extern const " ++ n ++ " : int;")) ++
    [Out.blank, Out.comment "End of #define'd integer literals", Out.blank]

/-- Top-level declarations as dispatched by `ChapelVisitor`:
`visit_Decl` routes its `Struct`/`Union` child to `genStructOrUnion`
(and prunes the typedef table), its `FuncDecl` child to `genFuncDecl`,
its `Enum` child to `genEnum`, and a `TypeDecl`/`PtrDecl`/`ArrayDecl`
child to `genVar`; `visit_Typedef` records the node for the second
pass.  The constructors below are these dispatch outcomes.  A top-level
anonymous struct definition is excluded from the model: Python would
store a `None` dictionary key for it and later crash inside `sorted`
when any real typedef is present, a degenerate input outside the scope
of the ordering claims. -/
inductive TopDecl where
  | suDecl (isU : Bool) (name : String) (decls : Option (List CField))
  | fnDecl (fnType : CType) (args : Option (List CParam))
  | enumDecl (name : Option String) (values : List String)
  | varDecl (name : String) (ty : CType)
  | typedef (name : String) (ty : CType)

/-- One step of the `ChapelVisitor` walk: emit the node's output and
update the `foundTypes` / `typeDefs` state. -/
def visitTop (found : List String) (tds : Tds) :
    TopDecl → Except String (List Out × List String × Tds)
  | .suDecl u n d =>
    match genStructOrUnion recursionLimit u (some n) d "" false found with
    | .error e => .error e
    | .ok (outs, found1) =>
      let tds1 := if suIsForward d then tds else tdsSet tds n none
      .ok (outs, found1, tds1)
  | .fnDecl ft as =>
    match genFuncDecl tds ft as with
    | .error e => .error e
    | .ok outs => .ok (outs, found, tds)
  | .enumDecl n vs => .ok (genEnum n vs, found, tds)
  | .varDecl n t =>
    match genVar n t with
    | .error e => .error e
    | .ok outs => .ok (outs, found, tds)
  | .typedef n t =>
    .ok ([], found,
         if (tdsFind? tds n).isSome then tds else tds ++ [(n, some ⟨n, t⟩)])

/-- One item of the source file, as seen by the two front ends: a raw
text line (scanned by `emit_defines`; C declaration text cannot match
the `^\s*#define...` pattern, so only these lines can produce macro
constants) or a parsed top-level declaration (visited by the walker). -/
inductive SrcItem where
  | textLine (s : String)
  | astDecl (d : TopDecl)

/-- An output item tagged with the index of the source item that
produced it (`none` for banners, preamble-like lines and the typedef
second pass, which has no single originating position). -/
abbrev OutT := Out × Option Nat

/-- The macro-constant portion of `emit_defines`, with each emitted
constant tagged by the index of its `#define` line; `i` is the index of
the first item of `items`. -/
def definesConsts (i : Nat) : List SrcItem → List OutT
  | [] => []
  | .textLine s :: rest =>
    (match matchDefine s with
     | some n => [(Out.decl ("extern const " ++ n ++ " : int;"), some i)]
     | none => []) ++ definesConsts (i + 1) rest
  | .astDecl _ :: rest => definesConsts (i + 1) rest

/-- `emit_defines` over the whole source, with origin tags. -/
def emitDefinesT (src : List SrcItem) : List OutT :=
  let consts := definesConsts 0 src
  if consts.isEmpty then []
  else
    [(Out.comment "#define'd integer literals:", none),
     (Out.comment "Note: some of these may have been defined with an ifdef", none)] ++
    consts ++
    [(Out.blank, none), (Out.comment "End of #define'd integer literals", none), (Out.blank, none)]

/-- The `ChapelVisitor` walk over the source's declarations, with each
output tagged by the index of the declaration that produced it. -/
def walkT (i : Nat) (src : List SrcItem) (found : List String) (tds : Tds) :
    Except String (List OutT × List String × Tds) :=
  match src with
  | [] => .ok ([], found, tds)
  | .textLine _ :: rest => walkT (i + 1) rest found tds
  | .astDecl d :: rest =>
    match visitTop found tds d with
    | .error e => .error e
    | .ok (outs, found1, tds1) =>
      match walkT (i + 1) rest found1 tds1 with
      | .error e => .error e
      | .ok (outs2, found2, tds2) =>
        .ok (outs.map (fun o => (o, some i)) ++ outs2, found2, tds2)

/-- The translation pipeline of `__main__` (the preamble, which contains
no `extern` declarations, is omitted): the textual `#define` scan over
the raw file, then the single walk over the declaration tree, then the
deferred typedef pass (`handleTypedefs`, untagged: its output is ordered
by typedef name, not by source position). -/
def mainT (src : List SrcItem) (ignores : List String) : Except String (List OutT) :=
  let defines := emitDefinesT src
  match walkT 0 src [] [] with
  | .error e => .error e
  | .ok (wouts, found, tds) =>
    match handleTypedefs tds ignores found with
    | .error e => .error e
    | .ok (touts, _) =>
      .ok (defines ++ wouts ++ touts.map (fun o => (o, none)))

/-- The origin positions of the tagged declarations in an output
(comments, blanks and untagged declarations are skipped). -/
def declOrigins (out : List OutT) : List Nat :=
  out.filterMap (fun p => if p.1.isDecl then p.2 else none)

/-- Boolean check that a list of positions is nondecreasing. -/
def sortedLe : List Nat → Bool
  | [] => true
  | [_] => true
  | a :: b :: t => a ≤ b && sortedLe (b :: t)

/-! Concrete fixtures used by the claim theorems below. -/

/-- The type node of a plain `int` declaration. -/
def intTy : CType := .typeDecl none [] (.ident ["int"])

/-- The type node of a field `struct { } y;` of anonymous struct type:
its `getDeclName` is `None`, so `toChapelType` returns Python `None`. -/
def anonStructTy : CType := .typeDecl (some "y") [] (.su false none (some []))

/-- The Chapel floating-point target type names in the registry (the
values registered for the C `double` and `float` spellings). -/
def floatTargets : List String := ["c_double", "c_float"]

/-!
Claim C3.  The spec says entries with no finite-width fixed-size target
fall back to the nearest supported width "within the same type family",
and in particular that `long double` resolves to the nearest supported
floating-point target type.  The registry actually maps `"long double"`
to `"c_longlong"` — a 64-bit *integer* type, not a floating type.
-/

/-- C3 counterexample: `long double` resolves to `c_longlong`, which is
not one of the registry's floating-point target types (`c_double`,
`c_float`), so the extended-precision floating type is not mapped to a
floating-point target at all. -/
theorem c3_counterexample :
    c2chapelGet "long double" = some "c_longlong" ∧
    c2chapelGet "double" = some "c_double" ∧
    c2chapelGet "float" = some "c_float" ∧
    floatTargets.contains "c_longlong" = false := by
  refine ⟨rfl, rfl, rfl, rfl⟩

/-- C3 amended: the `long double` registry entry falls back to a
supported 64-bit type, but in the integer family: it resolves to
`c_longlong` (both in the raw registry and through `toChapelType`),
not to a floating-point target type. -/
theorem c3_amended :
    c2chapelGet "long double" = some "c_longlong" ∧
    toChapelType (.typeDecl none [] (.ident ["long", "double"])) = .ok (some "c_longlong") := by
  refine ⟨rfl, rfl⟩

/-!
Claim C9.  `emit_defines` prints one constant per matching `#define`
line and keeps no record of already-emitted names, so a macro defined
by two identical lines is emitted twice, not once.
-/

/-- C9 counterexample: with the same `#define ANSWER 42` line appearing
twice, `extern const ANSWER : int;` is emitted twice, not exactly once. -/
theorem c9_counterexample :
    emit_defines ["#define ANSWER 42", "int x;", "#define ANSWER 42"] =
      [.comment "#define'd integer literals:",
       .comment "Note: some of these may have been defined with an ifdef",
       .decl "extern const ANSWER : int;",
       .decl "extern const ANSWER : int;",
       .blank, .comment "End of #define'd integer literals", .blank] ∧
    (emit_defines ["#define ANSWER 42", "int x;", "#define ANSWER 42"]).count
        (Out.decl "extern const ANSWER : int;") = 2 := by
  refine ⟨by decide, by decide⟩

/-- Strings are cancellable around a fixed prefix and suffix: used to
show two distinct macro names never produce the same constant line. -/
theorem constLine_injective (a b : String)
    (h : "extern const " ++ a ++ " : int;" = "extern const " ++ b ++ " : int;") : a = b := by
  have hd := congrArg String.data h
  simp only [String.data_append, List.append_assoc] at hd
  have h2 := List.append_cancel_left hd
  have h3 := List.append_cancel_right h2
  exact String.ext h3

/-- C9 amended: `extern const <name> : int;` is emitted exactly once per
line matching the `#define` pattern with that name — so repeated
identical `#define` lines produce repeated constant declarations (no
deduplication is performed). -/
theorem c9_amended (lines : List String) (name : String) :
    (emit_defines lines).count (Out.decl ("extern const " ++ name ++ " : int;")) =
      (lines.filterMap matchDefine).count name := by
  unfold emit_defines
  by_cases he : (lines.filterMap matchDefine).isEmpty
  · simp only [he, if_pos]
    rw [List.isEmpty_iff] at he
    simp [he]
  · simp only [he, if_neg, Bool.false_eq_true, not_false_iff]
    rw [List.count_append, List.count_append]
    have h1 : List.count (Out.decl ("extern const " ++ name ++ " : int;"))
        [Out.comment "#define'd integer literals:",
         Out.comment "Note: some of these may have been defined with an ifdef"] = 0 := by
      rw [List.count_eq_zero]
      simp
    have h2 : List.count (Out.decl ("extern const " ++ name ++ " : int;"))
        [Out.blank, Out.comment "End of #define'd integer literals", Out.blank] = 0 := by
      rw [List.count_eq_zero]
      simp
    rw [h1, h2]
    have hinj : Function.Injective (fun n => Out.decl ("extern const " ++ n ++ " : int;")) := by
      intro a b hab
      simp only [Out.decl.injEq] at hab
      exact constLine_injective a b hab
    have := List.count_map_of_injective (lines.filterMap matchDefine)
      (fun n => Out.decl ("extern const " ++ n ++ " : int;")) hinj name
    omega

/-!
Claim C6.  Resolving `Pointer(Pointer(T))` is the pointer wrapper
applied twice around the resolution of `T`, with `char`/`void`
short-circuiting at the innermost level.  This holds for named types,
but fails when `T` is a *function* type: `Pointer(Function)` collapses
to the opaque `c_fn_ptr` at the first level, so the double pointer
resolves to `c_ptr(c_fn_ptr)` rather than a twice-applied wrapper.
-/

/-- C6 counterexample: for `T` a function type, the resolution of the
double pointer is `c_ptr(c_fn_ptr)` — the wrapper applied once around
`resolve(T) = c_fn_ptr` — not the claimed twice-applied wrapper. -/
theorem c6_counterexample :
    toChapelType (.ptrDecl [] (.ptrDecl [] (.funcDecl none intTy))) =
      .ok (some "c_ptr(c_fn_ptr)") ∧
    toChapelType (.funcDecl none intTy) = .ok (some "c_fn_ptr") ∧
    "c_ptr(c_fn_ptr)" ≠ "c_ptr(" ++ ("c_ptr(" ++ "c_fn_ptr" ++ ")") ++ ")" := by
  refine ⟨rfl, rfl, by decide⟩

/-- Joining a single identifier name is the identity. -/
theorem joinNames_single (n : String) : joinNames [n] = n := by
  simp [joinNames, String.intercalate, String.intercalate.go]

/-- C6 amended: for every *named* type `n` other than `char` and `void`,
the double pointer resolves to the generic wrapper applied twice around
the resolution of `n`; `char` and `void` short-circuit at the innermost
level to the C-string mapping `c_ptr(c_char)` and the untyped-pointer
mapping `c_ptr(void)` respectively, each then wrapped once more; and —
the correction — a function type `T` short-circuits too: `Pointer(T)`
itself collapses to the opaque `c_fn_ptr`, so the double pointer is the
wrapper applied only once. -/
theorem c6_amended :
    (∀ (n r : String), n ≠ "char" → n ≠ "void" →
      toChapelType (.typeDecl none [] (.ident [n])) = .ok (some r) →
      toChapelType (.ptrDecl [] (.ptrDecl [] (.typeDecl none [] (.ident [n])))) =
        .ok (some ("c_ptr(" ++ ("c_ptr(" ++ r ++ ")") ++ ")"))) ∧
    (toChapelType (.ptrDecl [] (.typeDecl none [] (.ident ["char"]))) = .ok (some "c_ptr(c_char)") ∧
     toChapelType (.ptrDecl [] (.ptrDecl [] (.typeDecl none [] (.ident ["char"])))) =
       .ok (some "c_ptr(c_ptr(c_char))")) ∧
    (toChapelType (.ptrDecl [] (.typeDecl none [] (.ident ["void"]))) = .ok (some "c_ptr(void)") ∧
     toChapelType (.ptrDecl [] (.ptrDecl [] (.typeDecl none [] (.ident ["void"])))) =
       .ok (some "c_ptr(c_ptr(void))")) ∧
    (∀ (a : Option (List CParam)) (r : CType),
      toChapelType (.ptrDecl [] (.ptrDecl [] (.funcDecl a r))) = .ok (some "c_ptr(c_fn_ptr)")) := by
  refine ⟨?_, ⟨rfl, rfl⟩, ⟨rfl, rfl⟩, ?_⟩
  · intro n r hc hv hres
    have hchar : isPointerTo (.ptrDecl [] (.typeDecl none [] (.ident [n]))) "char" = false := by
      simp [isPointerTo, getDeclNameInner, joinNames_single, hc]
    have hvoid : isPointerTo (.ptrDecl [] (.typeDecl none [] (.ident [n]))) "void" = false := by
      simp [isPointerTo, getDeclNameInner, joinNames_single, hv]
    have hinner : toChapelType (.ptrDecl [] (.typeDecl none [] (.ident [n]))) =
        .ok (some ("c_ptr(" ++ r ++ ")")) := by
      rw [toChapelType]
      simp [hchar, hvoid, hres, qualsOf]
      exact fun _ _ h => CType.noConfusion h
    rw [toChapelType]
    simp [isPointerTo, hinner, qualsOf]
    exact fun _ _ h => CType.noConfusion h
  · intro a r
    rfl

/-! Helper lemmas about the field loop of `genStructOrUnion`. -/

/-- A "plain" field entry for the loop lemmas: carries a field name, the
field's type and its resolved Chapel type; the field embeds no nested
struct/union definition, its name is not a keyword and its type
resolves to a string. -/
def GoodField (g : String × CType × String) : Prop :=
  getSUTy g.2.1 = none ∧ chapelKeywords.contains g.1 = false ∧
    toChapelType g.2.1 = .ok (some g.2.2)

/-- The field `Decl` of a plain entry. -/
def fieldEntry (g : String × CType × String) : CField := .fieldDecl g.1 g.2.1

/-- The `members +=` step of the field loop for a plain entry. -/
def stepMembers (acc : String) (g : String × CType × String) : String :=
  acc ++ "  var " ++ g.1 ++ " : " ++ g.2.2 ++ ";\n"

theorem fieldLoop_cons_plain (fuel : Nat) (n : String) (t : CType) (s : String)
    (rest : List CField) (found : List String) (m : String)
    (hsu : getSUTy t = none) (hkw : chapelKeywords.contains n = false)
    (hres : toChapelType t = .ok (some s)) :
    fieldLoop (fuel + 1) (.fieldDecl n t :: rest) found m =
      fieldLoop fuel rest found (m ++ "  var " ++ n ++ " : " ++ s ++ ";\n") := by
  rw [fieldLoop]
  simp only [getSUField, hsu, hkw, Bool.false_eq_true, if_false, hres]
  cases hfl : fieldLoop fuel rest found (m ++ "  var " ++ n ++ " : " ++ s ++ ";\n") with
  | error e => rfl
  | ok r => obtain ⟨a, b, c, d, e⟩ := r; simp

theorem fieldLoop_cons_keyword (fuel : Nat) (kn : String) (kt : CType) (rest : List CField)
    (found : List String) (m : String)
    (hsu : getSUTy kt = none) (hkw : chapelKeywords.contains kn = true) :
    fieldLoop (fuel + 1) (.fieldDecl kn kt :: rest) found m =
      .ok ([], found, "", true, false) := by
  rw [fieldLoop]
  simp only [getSUField, hsu, hkw, if_true]

/-- A nested *anonymous* struct/union definition emits nothing: the
early return of `genStructOrUnion` when both names are absent. -/
theorem genStructOrUnion_anon_nop (fuel : Nat) (u : Bool) (d : Option (List CField))
    (found : List String) :
    genStructOrUnion (fuel + 1) u none d "" false found = .ok ([], found) := rfl

/-- A field whose type resolves to Python `None` breaks the loop while
keeping the `members` accumulated so far.  The field's type may embed an
anonymous struct/union definition (the realistic case for a `None`
resolution), whose nested emission produces nothing. -/
theorem fieldLoop_cons_badtype (fuel : Nat) (bn : String) (bt : CType) (rest : List CField)
    (found : List String) (m : String)
    (hsu : getSUTy bt = none ∨ ∃ u ds, getSUTy bt = some (u, none, ds))
    (hkw : chapelKeywords.contains bn = false)
    (hres : toChapelType bt = .ok none) :
    fieldLoop (fuel + 2) (.fieldDecl bn bt :: rest) found m = .ok ([], found, m, false, true) := by
  rw [fieldLoop]
  rcases hsu with hn | ⟨u2, ds2, hs⟩
  · simp only [getSUField, hn, hkw, Bool.false_eq_true, if_false, hres]
  · simp only [getSUField, hs, genStructOrUnion_anon_nop, hkw, Bool.false_eq_true, if_false, hres]

theorem fieldLoop_plain_prefix (good : List (String × CType × String)) (tail : List CField)
    (fuel : Nat) (found : List String) (m : String) (hg : ∀ g ∈ good, GoodField g) :
    fieldLoop (good.length + fuel) (good.map fieldEntry ++ tail) found m =
      fieldLoop fuel tail found (good.foldl stepMembers m) := by
  induction good generalizing m with
  | nil => simp
  | cons g gs ih =>
    have hgood := hg g (by simp)
    obtain ⟨h1, h2, h3⟩ := hgood
    simp only [List.map_cons, List.cons_append, List.foldl_cons, fieldEntry, List.length_cons]
    have harith : gs.length + 1 + fuel = (gs.length + fuel) + 1 := by omega
    rw [harith, fieldLoop_cons_plain (gs.length + fuel) g.1 g.2.1 g.2.2 _ found m h1 h2 h3]
    exact ih _ (fun x hx => hg x (by simp [hx]))

/-- Unfolding of `genStructOrUnion` for the walker's call shape on a
named, non-keyword, defined struct/union, given the field loop's
result. -/
theorem genStructOrUnion_def_fields (fuel : Nat) (isU : Bool) (name : String)
    (fields : List CField) (found f2 : List String) (outs : List Out) (members : String)
    (wk ws : Bool)
    (hkw : chapelKeywords.contains name = false)
    (hne : fields ≠ [])
    (hfl : fieldLoop fuel fields (addFound found name) "" = .ok (outs, f2, members, wk, ws)) :
    genStructOrUnion (fuel + 1) isU (some name) (some fields) "" false found =
      .ok (outs ++ (if wk then [Out.comment kwFieldsMsg] else []) ++
           (if ws then [Out.comment anonSkipMsg] else []) ++
           [Out.decl (((if isU then "extern \"union " ++ name ++ "\" union "
                        else "extern \"struct " ++ name ++ "\" record ") ++ name ++ " \x7b") ++
             (if members != "" then "\n" ++ members else members) ++ "\x7d\n")], f2) := by
  obtain ⟨f0, fs, rfl⟩ : ∃ f0 fs, fields = f0 :: fs := by
    cases fields with
    | nil => exact absurd rfl hne
    | cons a b => exact ⟨a, b, rfl⟩
  rw [genStructOrUnion]
  have he : (("" : String) == "") = true := rfl
  simp only [he, Bool.true_and, Option.isNone_some, Bool.and_false, Bool.false_eq_true,
    if_false, if_true, Option.getD_some, Option.isSome_some, hkw, suIsForward, hfl]

/-!
Claim C1.  The spec says that when a field's type cannot be resolved,
the aggregate's emission is abandoned entirely — no declaration with a
partial field list — plus a diagnostic.  In the code, the `break` on a
`None` field type keeps the `members` accumulated so far, so the
aggregate IS emitted, with exactly the fields that resolved before the
failure: a partial field list.
-/

/-- C1 counterexample: `struct S { int x; struct { } y; }` (the second
field's type resolves to Python `None`) emits a record declaration
that still contains the first field `x` — a partial field list — so
emission is not abandoned. -/
theorem c1_counterexample :
    genStructOrUnion recursionLimit false (some "S")
        (some [.fieldDecl "x" intTy, .fieldDecl "y" anonStructTy]) "" false [] =
      .ok ([.comment anonSkipMsg,
            .decl "extern \"struct S\" record S \x7b\n  var x : c_int;\n\x7d\n"], ["S"]) ∧
    toChapelType anonStructTy = .ok none ∧
    ([Out.comment anonSkipMsg,
      Out.decl "extern \"struct S\" record S \x7b\n  var x : c_int;\n\x7d\n"].filter
        Out.isDecl ≠ []) := by
  refine ⟨by decide, rfl, by decide⟩

/-- C1 amended: when some field's type fails to resolve, the remaining
fields (from the failing one onward) are dropped and a diagnostic is
produced, but the aggregate is still emitted — with the fields that
resolved before the failure, i.e. a possibly partial field list, not
abandoned entirely. -/
theorem c1_amended (fuel : Nat) (isU : Bool) (name : String)
    (good : List (String × CType × String))
    (bn : String) (bt : CType) (rest : List CField) (found : List String)
    (hkw : chapelKeywords.contains name = false)
    (hg : ∀ g ∈ good, GoodField g)
    (hbsu : getSUTy bt = none ∨ ∃ u ds, getSUTy bt = some (u, none, ds))
    (hbkw : chapelKeywords.contains bn = false)
    (hbres : toChapelType bt = .ok none) :
    genStructOrUnion (good.length + fuel + 3) isU (some name)
        (some (good.map fieldEntry ++ .fieldDecl bn bt :: rest)) "" false found =
      .ok ([Out.comment anonSkipMsg,
            Out.decl (((if isU then "extern \"union " ++ name ++ "\" union "
                        else "extern \"struct " ++ name ++ "\" record ") ++ name ++ " \x7b") ++
              (if good.foldl stepMembers "" != "" then "\n" ++ good.foldl stepMembers ""
               else good.foldl stepMembers "") ++ "\x7d\n")],
           addFound found name) := by
  have h1 : fieldLoop (good.length + fuel + 2)
      (good.map fieldEntry ++ CField.fieldDecl bn bt :: rest)
      (addFound found name) "" = .ok ([], addFound found name, good.foldl stepMembers "",
        false, true) := by
    have harith : good.length + fuel + 2 = good.length + (fuel + 2) := by omega
    rw [harith, fieldLoop_plain_prefix good _ (fuel + 2) _ "" hg]
    exact fieldLoop_cons_badtype fuel bn bt rest _ _ hbsu hbkw hbres
  have harith2 : good.length + fuel + 3 = (good.length + fuel + 2) + 1 := by omega
  rw [harith2, genStructOrUnion_def_fields (good.length + fuel + 2) isU name _ found _ [] _
    false true hkw (by simp) h1]
  rfl

/-- C1 witness: a struct with one resolvable field and then one
unresolvable field emits the partial record plus the diagnostic. -/
theorem c1_witness :
    chapelKeywords.contains "S2" = false ∧
    toChapelType anonStructTy = .ok none ∧
    genStructOrUnion ([("x", intTy, "c_int")].length + 0 + 3) false (some "S2")
        (some ([("x", intTy, "c_int")].map fieldEntry ++ .fieldDecl "y" anonStructTy :: [])) ""
        false [] =
      .ok ([Out.comment anonSkipMsg,
            Out.decl (((if false then "extern \"union " ++ "S2" ++ "\" union "
                        else "extern \"struct " ++ "S2" ++ "\" record ") ++ "S2" ++ " \x7b") ++
              (if [("x", intTy, "c_int")].foldl stepMembers "" != "" then
                 "\n" ++ [("x", intTy, "c_int")].foldl stepMembers ""
               else [("x", intTy, "c_int")].foldl stepMembers "") ++ "\x7d\n")],
           addFound [] "S2") := by
  refine ⟨rfl, rfl, ?_⟩
  exact c1_amended 0 false "S2" [("x", intTy, "c_int")] "y" anonStructTy [] []
    rfl (by intro g hg; simp at hg; subst hg; exact ⟨rfl, rfl, rfl⟩)
    (Or.inr ⟨false, [], rfl⟩) rfl rfl

/-!
Claim C5.  A field name that is a Chapel keyword causes the whole field
list to be dropped: the aggregate is emitted with an empty body plus a
diagnostic, never a partially filled body.  The code resets `members`
to the empty string before breaking, confirming the claim.
-/

/-- C5 theorem: whenever a field's name is a Chapel keyword (with any
resolvable prefix of fields before it and anything after it), the
emitted aggregate body is empty — the prefix fields are discarded —
and the keyword diagnostic is produced. -/
theorem c5_keyword_field_empty_body (fuel : Nat) (isU : Bool) (name : String)
    (good : List (String × CType × String)) (kn : String) (kt : CType)
    (rest : List CField) (found : List String)
    (hkw : chapelKeywords.contains name = false)
    (hg : ∀ g ∈ good, GoodField g)
    (hksu : getSUTy kt = none)
    (hkkw : chapelKeywords.contains kn = true) :
    genStructOrUnion (good.length + fuel + 2) isU (some name)
        (some (good.map fieldEntry ++ .fieldDecl kn kt :: rest)) "" false found =
      .ok ([Out.comment kwFieldsMsg,
            Out.decl (((if isU then "extern \"union " ++ name ++ "\" union "
                        else "extern \"struct " ++ name ++ "\" record ") ++ name ++ " \x7b") ++
              "\x7d\n")],
           addFound found name) := by
  have h1 : fieldLoop (good.length + fuel + 1)
      (good.map fieldEntry ++ CField.fieldDecl kn kt :: rest)
      (addFound found name) "" = .ok ([], addFound found name, "", true, false) := by
    have harith : good.length + fuel + 1 = good.length + (fuel + 1) := by omega
    rw [harith, fieldLoop_plain_prefix good _ (fuel + 1) _ "" hg]
    exact fieldLoop_cons_keyword fuel kn kt rest _ _ hksu hkkw
  have harith2 : good.length + fuel + 2 = (good.length + fuel + 1) + 1 := by omega
  rw [harith2, genStructOrUnion_def_fields (good.length + fuel + 1) isU name _ found _ [] _
    true false hkw (by simp) h1]
  simp

/-- C5 witness: `struct S { int x; int ref; int z; }` — the middle
field name `ref` is a Chapel keyword — emits a record with zero fields
plus the diagnostic, not a partially filled body. -/
theorem c5_witness :
    chapelKeywords.contains "ref" = true ∧
    genStructOrUnion ([("x", intTy, "c_int")].length + 0 + 2) false (some "S")
        (some ([("x", intTy, "c_int")].map fieldEntry ++
               .fieldDecl "ref" intTy :: [.fieldDecl "z" intTy])) "" false [] =
      .ok ([Out.comment kwFieldsMsg,
            Out.decl (((if false then "extern \"union " ++ "S" ++ "\" union "
                        else "extern \"struct " ++ "S" ++ "\" record ") ++ "S" ++ " \x7b") ++
              "\x7d\n")],
           addFound [] "S") := by
  refine ⟨rfl, ?_⟩
  exact c5_keyword_field_empty_body 0 false "S" [("x", intTy, "c_int")] "ref" intTy
    [.fieldDecl "z" intTy] [] rfl
    (by intro g hg; simp at hg; subst hg; exact ⟨rfl, rfl, rfl⟩) rfl rfl

/-!
Claim C2.  The spec says every *defining* name that collides with a
Chapel keyword is refused outright — in particular a keyword-named
global variable is "not emitted under any name".  Functions and
struct/union definitions are indeed refused with a diagnostic, but
`genVar` instead renames the variable with a `c2chapel_` prefix and
emits it, with no diagnostic at all.
-/

/-- C2 counterexample: the global variable `int ref;` (a Chapel keyword
name) IS emitted, under the name `c2chapel_ref`, with no diagnostic. -/
theorem c2_counterexample :
    chapelKeywords.contains "ref" = true ∧
    genVar "ref" intTy = .ok [.decl "extern var c2chapel_ref : c_int;", .blank] ∧
    ([Out.decl "extern var c2chapel_ref : c_int;", Out.blank].filter Out.isDecl ≠ []) := by
  refine ⟨rfl, rfl, by decide⟩

/-- C2 amended: a keyword-named *function* or *struct/union* definition
is refused outright with a diagnostic comment, but a keyword-named
global variable is renamed with the fixed `c2chapel_` prefix and
emitted anyway (with no diagnostic). -/
theorem c2_amended :
    (∀ (tds : Tds) (ft : CType) (pl : Option (List CParam)) (n : String)
       (rt0 : Option String) (args ptrArgs : String),
      toChapelType ft = .ok rt0 →
      getFunctionName ft = .ok (some n) →
      computeArgs tds pl = .ok (args, ptrArgs) →
      chapelKeywords.contains n = true →
      genFuncDecl tds ft pl =
        .ok [.comment ("Unable to generate function '" ++ n ++
               "' because its name is a Chapel keyword"), .blank]) ∧
    (∀ (fuel : Nat) (isU : Bool) (decls : Option (List CField)) (name : String)
       (found : List String),
      chapelKeywords.contains name = true →
      genStructOrUnion (fuel + 1) isU (some name) decls "" false found =
        .ok ([.comment ("Unable to generate " ++
               (if decls.isSome && isU then "union" else "struct") ++ " '" ++ name ++ "' " ++
               "because its name is a Chapel keyword"), .blank], found)) ∧
    (∀ (nv : String) (tv : CType) (s : String),
      chapelKeywords.contains nv = true →
      toChapelType tv = .ok (some s) →
      genVar nv tv = .ok [.decl ("extern var c2chapel_" ++ nv ++ " : " ++ s ++ ";"), .blank]) := by
  refine ⟨?_, ?_, ?_⟩
  · intro tds ft pl n rt0 args ptrArgs h1 h2 h3 h4
    rw [genFuncDecl, h1, h2, h3]
    simp only [h4, if_true, Option.getD_some]
  · intro fuel isU decls name found hkw
    rw [genStructOrUnion]
    have h0 : ((("" : String) == "") && (some name).isNone) = false := rfl
    have he : (("" : String) == "") = true := rfl
    simp only [h0, Bool.false_eq_true, if_false, he, if_true, Option.getD_some, hkw,
      Bool.true_and, Option.isNone_some]
  · intro nv tv s hkw hres
    rw [genVar]
    simp only [hkw, if_true, hres]
    rfl

/-- C2 witness: a keyword-named function and struct are refused with a
diagnostic; the keyword-named variable `in` is emitted as
`c2chapel_in`. -/
theorem c2_witness :
    chapelKeywords.contains "proc" = true ∧
    genFuncDecl [] (.typeDecl (some "proc") [] (.ident ["void"])) none =
      .ok [.comment ("Unable to generate function '" ++ "proc" ++
             "' because its name is a Chapel keyword"), .blank] ∧
    genStructOrUnion (0 + 1) false (some "record") (some [CField.fieldDecl "x" intTy]) "" false [] =
      .ok ([.comment ("Unable to generate " ++
             (if (some [CField.fieldDecl "x" intTy]).isSome && false then "union" else "struct") ++
             " '" ++ "record" ++ "' " ++ "because its name is a Chapel keyword"), .blank], []) ∧
    genVar "in" intTy = .ok [.decl ("extern var c2chapel_" ++ "in" ++ " : " ++ "c_int" ++ ";"), .blank] := by
  refine ⟨rfl, ?_, ?_, ?_⟩
  · exact c2_amended.1 [] _ none "proc" (some "") "" "" rfl rfl rfl rfl
  · exact c2_amended.2.1 0 false (some [CField.fieldDecl "x" intTy]) "record" [] rfl
  · exact c2_amended.2.2 "in" intTy "c_int" rfl rfl

/-- C6 witness: instantiating the amended claim at the named type `int`
resolves the double pointer to the wrapper applied twice. -/
theorem c6_witness :
    toChapelType (.typeDecl none [] (.ident ["int"])) = .ok (some "c_int") ∧
    toChapelType (.ptrDecl [] (.ptrDecl [] (.typeDecl none [] (.ident ["int"])))) =
      .ok (some ("c_ptr(" ++ ("c_ptr(" ++ "c_int" ++ ")") ++ ")")) :=
  ⟨rfl, c6_amended.1 "int" "c_int" (by decide) (by decide) rfl⟩

/-! Helper lemmas about `genFuncDecl`. -/

/-- The text of one emitted `extern proc` line. -/
def procLine (n args rt : String) : String :=
  "extern proc " ++ n ++ "(" ++ args ++ ") : " ++ rt ++ ";\n"

theorem expectStr_some (s : String) : expectStr (some s) = .ok s := rfl

/-- Unfolding of `genFuncDecl` on a function that is neither
keyword-named nor rejected for a `va_list` argument: the
reference-style line always, the pointer-style line exactly when the
two formal lists differ, and the comma-joined no-varargs overload
exactly when the reference-style list ends in the varargs marker. -/
theorem genFuncDecl_unfold (tds : Tds) (ft : CType) (pl : Option (List CParam)) (n : String)
    (rt0 : Option String) (rt args ptrArgs : String)
    (h1 : toChapelType ft = .ok rt0)
    (h2 : getFunctionName ft = .ok (some n))
    (h3 : computeArgs tds pl = .ok (args, ptrArgs))
    (h4 : chapelKeywords.contains n = false)
    (h5 : vaListMatch args = false)
    (h6 : expectStr (if rt0 == some "" then some "void" else rt0) = .ok rt) :
    genFuncDecl tds ft pl = .ok (
      (if ptrArgs != args then [Out.decl (procLine n args rt), Out.decl (procLine n ptrArgs rt)]
       else [Out.decl (procLine n args rt)]) ++
      (if (argSplit args).getLast? == some VARARGS_STR then
         [Out.comment "Overload for empty varargs",
          Out.decl (procLine n (String.intercalate "," (argSplit args).dropLast) rt)]
       else [])) := by
  rw [genFuncDecl, h1, h2, h3]
  simp only [h4, Bool.false_eq_true, if_false, h5, h6, expectStr_some, procLine]
  by_cases hva : ((argSplit args).getLast? == some VARARGS_STR) = true
  · simp only [hva, if_true]
  · simp only [eq_false_of_ne_true hva, Bool.false_eq_true, if_false, List.append_nil]

/-!
Claim C7.  `void f(const int *x)` emits exactly two overloads — the
read-only reference form and the raw immutable pointer form — and in
general the pointer-style overload is emitted precisely when the two
formal lists differ.
-/

/-- C7 theorem: the concrete prototype `void f(const int *x)` emits
exactly the two claimed overload declarations bound to the same name,
and in general (for any emitted non-variadic function) the second
overload appears precisely when the pointer-style formal list differs
from the reference-style one. -/
theorem c7_const_ptr_two_overloads :
    (genFuncDecl [] (.typeDecl (some "f") [] (.ident ["void"]))
        (some [.pdecl "x" (.ptrDecl [] (.typeDecl (some "x") ["const"] (.ident ["int"])))]) =
      .ok [.decl "extern proc f(const ref x : c_int) : void;\n",
           .decl "extern proc f(x : c_ptrConst(c_int)) : void;\n"]) ∧
    (∀ (tds : Tds) (ft : CType) (pl : Option (List CParam)) (n : String)
       (rt0 : Option String) (rt args ptrArgs : String),
      toChapelType ft = .ok rt0 →
      getFunctionName ft = .ok (some n) →
      computeArgs tds pl = .ok (args, ptrArgs) →
      chapelKeywords.contains n = false →
      vaListMatch args = false →
      expectStr (if rt0 == some "" then some "void" else rt0) = .ok rt →
      ((argSplit args).getLast? == some VARARGS_STR) = false →
      genFuncDecl tds ft pl = .ok
        (if ptrArgs == args then [Out.decl (procLine n args rt)]
         else [Out.decl (procLine n args rt), Out.decl (procLine n ptrArgs rt)])) := by
  constructor
  · decide
  · intro tds ft pl n rt0 rt args ptrArgs h1 h2 h3 h4 h5 h6 hlast
    rw [genFuncDecl_unfold tds ft pl n rt0 rt args ptrArgs h1 h2 h3 h4 h5 h6]
    rw [hlast]
    simp only [Bool.false_eq_true, if_false, List.append_nil, bne]
    by_cases he : (ptrArgs == args) = true
    · simp [he]
    · simp [eq_false_of_ne_true he]

/-- C7 witness: the general component applied to `void f(const int *x)`
with the two formal lists differing yields the two-overload output. -/
theorem c7_witness :
    computeArgs []
        (some [.pdecl "x" (.ptrDecl [] (.typeDecl (some "x") ["const"] (.ident ["int"])))]) =
      .ok ("const ref x : c_int", "x : c_ptrConst(c_int)") ∧
    genFuncDecl [] (.typeDecl (some "f") [] (.ident ["void"]))
        (some [.pdecl "x" (.ptrDecl [] (.typeDecl (some "x") ["const"] (.ident ["int"])))]) =
      .ok (if ("x : c_ptrConst(c_int)" == "const ref x : c_int") then
             [Out.decl (procLine "f" "const ref x : c_int" "void")]
           else [Out.decl (procLine "f" "const ref x : c_int" "void"),
                 Out.decl (procLine "f" "x : c_ptrConst(c_int)" "void")]) := by
  refine ⟨by decide, ?_⟩
  exact c7_const_ptr_two_overloads.2 [] _ _ "f" (some "") "void"
    "const ref x : c_int" "x : c_ptrConst(c_int)" rfl rfl (by decide) (by decide)
    (by decide) rfl (by decide)

/-!
Claim C8.  Every emitted variadic function gets an extra overload with
the trailing varargs marker removed.  The code joins the remaining
formals with `","` (no space), so with two or more remaining parameters
the extra overload is NOT textually identical to the original minus the
marker: only the parameters match, the separators differ.
-/

/-- C8 counterexample: for `int f(int a, int b, ...)` (embedded with a
`void` return for brevity), the extra overload printed is
`f(a : c_int,b : c_int)` — joined with a bare comma — and the
identical-minus-marker line `f(a : c_int, b : c_int)` predicted by the
claim is not in the output. -/
theorem c8_counterexample :
    genFuncDecl [] (.typeDecl (some "f") [] (.ident ["void"]))
        (some [.pdecl "a" intTy, .pdecl "b" intTy, .ellipsis]) =
      .ok [.decl "extern proc f(a : c_int, b : c_int, c__varargs ...) : void;\n",
           .comment "Overload for empty varargs",
           .decl "extern proc f(a : c_int,b : c_int) : void;\n"] ∧
    Out.decl "extern proc f(a : c_int, b : c_int) : void;\n" ∉
      [Out.decl "extern proc f(a : c_int, b : c_int, c__varargs ...) : void;\n",
       Out.comment "Overload for empty varargs",
       Out.decl "extern proc f(a : c_int,b : c_int) : void;\n"] := by
  refine ⟨by decide, by decide⟩

/-- C8 amended: for every emitted function whose reference-style formal
list ends in the varargs marker, an additional overload is emitted
whose parameter list is the original list of formal entries minus the
trailing marker, re-joined with `","` (no space after the comma): the
remaining non-variadic parameter entries match exactly, but the
emitted text differs from the original by the inter-parameter spacing
when two or more parameters remain. -/
theorem c8_amended (tds : Tds) (ft : CType) (pl : Option (List CParam)) (n : String)
    (rt0 : Option String) (rt args ptrArgs : String)
    (h1 : toChapelType ft = .ok rt0)
    (h2 : getFunctionName ft = .ok (some n))
    (h3 : computeArgs tds pl = .ok (args, ptrArgs))
    (h4 : chapelKeywords.contains n = false)
    (h5 : vaListMatch args = false)
    (h6 : expectStr (if rt0 == some "" then some "void" else rt0) = .ok rt)
    (hlast : (argSplit args).getLast? = some VARARGS_STR) :
    genFuncDecl tds ft pl = .ok (
      (if ptrArgs != args then [Out.decl (procLine n args rt), Out.decl (procLine n ptrArgs rt)]
       else [Out.decl (procLine n args rt)]) ++
      [Out.comment "Overload for empty varargs",
       Out.decl (procLine n (String.intercalate "," (argSplit args).dropLast) rt)]) ∧
    (argSplit args).dropLast ++ [VARARGS_STR] = argSplit args := by
  constructor
  · rw [genFuncDecl_unfold tds ft pl n rt0 rt args ptrArgs h1 h2 h3 h4 h5 h6]
    simp [hlast]
  · have hne : argSplit args ≠ [] := by
      intro he; rw [he] at hlast; exact Option.noConfusion hlast
    have h2' := List.dropLast_append_getLast hne
    rw [List.getLast?_eq_getLast _ hne, Option.some.injEq] at hlast
    rw [hlast] at h2'
    exact h2'

/-- C8 witness: the amended claim at the concrete two-parameter
variadic function. -/
theorem c8_witness :
    (argSplit "a : c_int, b : c_int, c__varargs ...").getLast? = some VARARGS_STR ∧
    genFuncDecl [] (.typeDecl (some "f") [] (.ident ["void"]))
        (some [.pdecl "a" intTy, .pdecl "b" intTy, .ellipsis]) =
      .ok (
        (if "a : c_int, b : c_int, c__varargs ..." != "a : c_int, b : c_int, c__varargs ..." then
           [Out.decl (procLine "f" "a : c_int, b : c_int, c__varargs ..." "void"),
            Out.decl (procLine "f" "a : c_int, b : c_int, c__varargs ..." "void")]
         else [Out.decl (procLine "f" "a : c_int, b : c_int, c__varargs ..." "void")]) ++
        [Out.comment "Overload for empty varargs",
         Out.decl (procLine "f"
           (String.intercalate ","
             (argSplit "a : c_int, b : c_int, c__varargs ...").dropLast) "void")]) ∧
    (argSplit "a : c_int, b : c_int, c__varargs ...").dropLast ++ [VARARGS_STR] =
      argSplit "a : c_int, b : c_int, c__varargs ..." := by
  have h := c8_amended [] (.typeDecl (some "f") [] (.ident ["void"]))
    (some [.pdecl "a" intTy, .pdecl "b" intTy, .ellipsis]) "f" (some "") "void"
    "a : c_int, b : c_int, c__varargs ..." "a : c_int, b : c_int, c__varargs ..."
    rfl rfl (by decide) (by decide) (by decide) rfl (by decide)
  exact ⟨by decide, h.1, h.2⟩

/-!
Claim C10.  Parameters of type pointer-to-`unsigned char` are excluded
from the reference-intent computation: both formal lists type them as
the raw pointer wrapper, so a function whose pointer parameters are all
of this kind gets identical formal lists and a single overload.
-/

/-- A parameter of pointer-to-`unsigned char` type (with arbitrary
qualifiers and declarator name). -/
def ucharParam (p : CParam) : Prop :=
  ∃ nm pq dn q ns, p = .pdecl nm (.ptrDecl pq (.typeDecl dn q (.ident ns))) ∧
    joinNames ns = "unsigned char"

/-- C10 theorem: a pointer-to-`unsigned char` parameter gets no
reference intent — `getIntentInfo` returns the empty intent with the
raw pointer wrapper (`c_ptr(c_uchar)`, or `c_ptrConst(c_uchar)` for a
const-qualified pointee) as both the value type and the pointer type —
so for a parameter list made entirely of such parameters the two
formal lists coincide, and the emission produces exactly one overload. -/
theorem c10_uchar_no_ref_intent :
    (∀ (pq : List String) (dn : Option String) (q : List String) (ns : List String),
      joinNames ns = "unsigned char" →
      getIntentInfo (.ptrDecl pq (.typeDecl dn q (.ident ns))) =
        .ok ("", some (if q.contains "const" then "c_ptrConst(c_uchar)" else "c_ptr(c_uchar)"),
             some (if q.contains "const" then "c_ptrConst(c_uchar)" else "c_ptr(c_uchar)"))) ∧
    (∀ (tds : Tds) (ps : List CParam) (i : Nat), (∀ p ∈ ps, ucharParam p) →
      ∃ l, computeArgsLists tds ps i = .ok (l, l)) ∧
    (∀ (tds : Tds) (ft : CType) (pl : Option (List CParam)) (n : String)
       (rt0 : Option String) (rt args : String),
      toChapelType ft = .ok rt0 →
      getFunctionName ft = .ok (some n) →
      computeArgs tds pl = .ok (args, args) →
      chapelKeywords.contains n = false →
      vaListMatch args = false →
      expectStr (if rt0 == some "" then some "void" else rt0) = .ok rt →
      ((argSplit args).getLast? == some VARARGS_STR) = false →
      genFuncDecl tds ft pl = .ok [Out.decl (procLine n args rt)]) := by
  have hmain : ∀ (pq : List String) (dn : Option String) (q : List String)
      (ns : List String), joinNames ns = "unsigned char" →
      getIntentInfo (.ptrDecl pq (.typeDecl dn q (.ident ns))) =
        .ok ("", some (if q.contains "const" then "c_ptrConst(c_uchar)" else "c_ptr(c_uchar)"),
             some (if q.contains "const" then "c_ptrConst(c_uchar)" else "c_ptr(c_uchar)")) := by
    intro pq dn q ns hns
    have hu : isPointerTo (.ptrDecl pq (.typeDecl dn q (.ident ns))) "unsigned char" = true := by
      simp [isPointerTo, getDeclNameInner, hns]
    have hc : isPointerTo (.ptrDecl pq (.typeDecl dn q (.ident ns))) "char" = false := by
      simp [isPointerTo, getDeclNameInner, hns]
    have hch : toChapelType (.ptrDecl pq (.typeDecl dn q (.ident ns))) =
        .ok (some (if q.contains "const" then "c_ptrConst(c_uchar)" else "c_ptr(c_uchar)")) := by
      rw [toChapelType]
      have hin : toChapelType (.typeDecl dn q (.ident ns)) = .ok (some "c_uchar") := by
        rw [toChapelType]
        simp [getDeclNameInner, hns, c2chapelGet, c2chapel]
      simp only [hc, Bool.false_eq_true, if_false]
      have hv : isPointerTo (.ptrDecl pq (.typeDecl dn q (.ident ns))) "void" = false := by
        simp [isPointerTo, getDeclNameInner, hns]
      simp only [hv, Bool.false_eq_true, if_false, hin, qualsOf]
      split <;> rename_i hq
      · simp [hq]
      · simp [hq]
      · exact fun _ _ h => CType.noConfusion h
    rw [getIntentInfo]
    simp only [hu, Bool.true_or, Bool.not_true, Bool.false_eq_true, if_false, hch]
  refine ⟨hmain, ?_, ?_⟩
  · intro tds ps i hps
    induction ps generalizing i with
    | nil => exact ⟨[], rfl⟩
    | cons p rest ih =>
      obtain ⟨nm, pq, dn, q, ns, rfl, hns⟩ := hps p (by simp)
      obtain ⟨l, hl⟩ := ih (i + 1) (fun x hx => hps x (by simp [hx]))
      have hw : ((some (if q.contains "const" then "c_ptrConst(c_uchar)"
          else "c_ptr(c_uchar)") : Option String) == some "") = false := by
        cases hq2 : q.contains "const" <;> simp [hq2]
      have hw2 : ((some (if q.contains "const" then "c_ptrConst(c_uchar)"
          else "c_ptr(c_uchar)") : Option String) != some "") = true := by
        cases hq2 : q.contains "const" <;> simp [hq2]
      have hisu : isStructOrUnionType tds recursionLimit
          (.ptrDecl pq (.typeDecl dn q (.ident ns))) = .ok false := rfl
      simp only [computeArgsLists, paramTy, hmain pq dn q ns hns, computeArgName,
        hw, hw2, Bool.false_eq_true, if_false, if_true, hisu, expectStr, hl]
      exact ⟨_, rfl⟩
  · intro tds ft pl n rt0 rt args h1 h2 h3 h4 h5 h6 hlast
    rw [genFuncDecl_unfold tds ft pl n rt0 rt args args h1 h2 h3 h4 h5 h6]
    simp [hlast]

/-- C10 witness: `void g(unsigned char *s, const unsigned char *t)` —
both pointer parameters are pointers to `unsigned char` — gets no
reference intents, identical formal lists, and exactly one overload. -/
theorem c10_witness :
    joinNames ["unsigned", "char"] = "unsigned char" ∧
    getIntentInfo (.ptrDecl [] (.typeDecl (some "s") [] (.ident ["unsigned", "char"]))) =
      .ok ("", some "c_ptr(c_uchar)", some "c_ptr(c_uchar)") ∧
    computeArgs []
        (some [.pdecl "s" (.ptrDecl [] (.typeDecl (some "s") [] (.ident ["unsigned", "char"]))),
               .pdecl "t" (.ptrDecl []
                 (.typeDecl (some "t") ["const"] (.ident ["unsigned", "char"])))]) =
      .ok ("s : c_ptr(c_uchar), t : c_ptrConst(c_uchar)",
           "s : c_ptr(c_uchar), t : c_ptrConst(c_uchar)") ∧
    genFuncDecl [] (.typeDecl (some "g") [] (.ident ["void"]))
        (some [.pdecl "s" (.ptrDecl [] (.typeDecl (some "s") [] (.ident ["unsigned", "char"]))),
               .pdecl "t" (.ptrDecl []
                 (.typeDecl (some "t") ["const"] (.ident ["unsigned", "char"])))]) =
      .ok [Out.decl (procLine "g" "s : c_ptr(c_uchar), t : c_ptrConst(c_uchar)" "void")] := by
  refine ⟨rfl, ?_, by decide, ?_⟩
  · exact c10_uchar_no_ref_intent.1 [] (some "s") [] ["unsigned", "char"] rfl
  · exact c10_uchar_no_ref_intent.2.2 [] _ _ "g" (some "") "void"
      "s : c_ptr(c_uchar), t : c_ptrConst(c_uchar)" rfl rfl (by decide) (by decide)
      (by decide) rfl (by decide)

/-! Helper lemmas about emission order for the pipeline claim. -/

theorem sortedLe_cons (a : Nat) (l : List Nat) (hl : sortedLe l = true)
    (ha : ∀ x ∈ l, a ≤ x) : sortedLe (a :: l) = true := by
  cases l with
  | nil => rfl
  | cons b t =>
    have hab : a ≤ b := ha b (by simp)
    simp [sortedLe, hab, hl]

theorem sortedLe_head_le (a : Nat) (l : List Nat) (h : sortedLe (a :: l) = true) :
    sortedLe l = true ∧ ∀ x ∈ l, a ≤ x := by
  induction l generalizing a with
  | nil => exact ⟨rfl, by simp⟩
  | cons b t ih =>
    simp only [sortedLe, Bool.and_eq_true, decide_eq_true_eq] at h
    obtain ⟨hab, hbt⟩ := h
    obtain ⟨ht, hb⟩ := ih b hbt
    refine ⟨hbt, ?_⟩
    intro x hx
    rcases List.mem_cons.mp hx with rfl | hx2
    · exact hab
    · exact le_trans hab (hb x hx2)

theorem sortedLe_append (l1 l2 : List Nat) (h1 : sortedLe l1 = true) (h2 : sortedLe l2 = true)
    (hle : ∀ x ∈ l1, ∀ y ∈ l2, x ≤ y) : sortedLe (l1 ++ l2) = true := by
  induction l1 with
  | nil => simpa using h2
  | cons a t ih =>
    obtain ⟨ht, hat⟩ := sortedLe_head_le a t h1
    have hstep := ih ht (fun x hx y hy => hle x (by simp [hx]) y hy)
    refine sortedLe_cons a (t ++ l2) hstep ?_
    intro x hx
    rcases List.mem_append.mp hx with hx1 | hx2
    · exact hat x hx1
    · exact hle a (by simp) x hx2

theorem sortedLe_of_all_eq (l : List Nat) (i : Nat) (h : ∀ x ∈ l, x = i) :
    sortedLe l = true := by
  induction l with
  | nil => rfl
  | cons a t ih =>
    refine sortedLe_cons a t (ih (fun x hx => h x (by simp [hx]))) ?_
    intro x hx
    rw [h a (by simp), h x (by simp [hx])]

theorem declOrigins_append (l1 l2 : List OutT) :
    declOrigins (l1 ++ l2) = declOrigins l1 ++ declOrigins l2 :=
  List.filterMap_append l1 l2 _

theorem declOrigins_cons_decl_some (s : String) (i : Nat) (l : List OutT) :
    declOrigins ((Out.decl s, some i) :: l) = i :: declOrigins l := rfl

theorem declOrigins_cons_not_decl (o : Out) (j : Option Nat) (l : List OutT)
    (h : o.isDecl = false) : declOrigins ((o, j) :: l) = declOrigins l := by
  rw [declOrigins, List.filterMap_cons]
  simp only [h, Bool.false_eq_true, if_false]
  rfl

theorem declOrigins_cons_decl_none (s : String) (l : List OutT) :
    declOrigins ((Out.decl s, none) :: l) = declOrigins l := rfl

theorem declOrigins_tagged (outs : List Out) (i : Nat) :
    ∀ x ∈ declOrigins (outs.map (fun o => (o, some i))), x = i := by
  induction outs with
  | nil => intro x hx; simp [declOrigins] at hx
  | cons o t ih =>
    intro x hx
    rw [List.map_cons] at hx
    cases o with
    | decl s =>
      rw [declOrigins_cons_decl_some] at hx
      rcases List.mem_cons.mp hx with rfl | hx2
      · rfl
      · exact ih x hx2
    | comment s => rw [declOrigins_cons_not_decl (Out.comment s) _ _ rfl] at hx; exact ih x hx
    | blank => rw [declOrigins_cons_not_decl Out.blank _ _ rfl] at hx; exact ih x hx
    | raw s => rw [declOrigins_cons_not_decl (Out.raw s) _ _ rfl] at hx; exact ih x hx

theorem declOrigins_untagged (outs : List Out) :
    declOrigins (outs.map (fun o => (o, (none : Option Nat)))) = [] := by
  induction outs with
  | nil => rfl
  | cons o t ih =>
    rw [List.map_cons]
    cases o with
    | decl s => rw [declOrigins_cons_decl_none]; exact ih
    | comment s => rw [declOrigins_cons_not_decl (Out.comment s) _ _ rfl]; exact ih
    | blank => rw [declOrigins_cons_not_decl Out.blank _ _ rfl]; exact ih
    | raw s => rw [declOrigins_cons_not_decl (Out.raw s) _ _ rfl]; exact ih

/-- The `#define`-derived constants are tagged with strictly increasing
source positions, all at least the starting index. -/
theorem definesConsts_origins (src : List SrcItem) : ∀ (i : Nat),
    sortedLe (declOrigins (definesConsts i src)) = true ∧
    ∀ x ∈ declOrigins (definesConsts i src), i ≤ x := by
  induction src with
  | nil => intro i; exact ⟨rfl, by simp [definesConsts, declOrigins]⟩
  | cons it rest ih =>
    intro i
    obtain ⟨hs, hge⟩ := ih (i + 1)
    cases it with
    | textLine s =>
      rw [definesConsts]
      cases hm : matchDefine s with
      | none =>
        simp only [hm, List.nil_append]
        exact ⟨hs, fun x hx => le_trans (by omega) (hge x hx)⟩
      | some n =>
        simp only [hm, List.singleton_append]
        rw [declOrigins_cons_decl_some]
        constructor
        · refine sortedLe_cons i _ hs ?_
          intro x hx
          exact le_trans (by omega) (hge x hx)
        · intro x hx
          rcases List.mem_cons.mp hx with rfl | hx2
          · exact le_refl x
          · exact le_trans (by omega) (hge x hx2)
    | astDecl d =>
      rw [definesConsts]
      exact ⟨hs, fun x hx => le_trans (by omega) (hge x hx)⟩

/-- The walker's outputs are tagged with nondecreasing source
positions, all at least the starting index. -/
theorem walkT_origins (src : List SrcItem) : ∀ (i : Nat) (found : List String) (tds : Tds)
    (wouts : List OutT) (f : List String) (t : Tds),
    walkT i src found tds = .ok (wouts, f, t) →
    sortedLe (declOrigins wouts) = true ∧ ∀ x ∈ declOrigins wouts, i ≤ x := by
  induction src with
  | nil =>
    intro i found tds wouts f t h
    rw [walkT] at h
    cases Except.ok.inj h
    exact ⟨rfl, by simp [declOrigins]⟩
  | cons it rest ih =>
    intro i found tds wouts f t h
    cases it with
    | textLine s =>
      rw [walkT] at h
      obtain ⟨hs, hge⟩ := ih (i + 1) found tds wouts f t h
      exact ⟨hs, fun x hx => le_trans (by omega) (hge x hx)⟩
    | astDecl d =>
      rw [walkT] at h
      revert h
      cases hv : visitTop found tds d with
      | error e => intro h; simp at h
      | ok r =>
        obtain ⟨outs, found1, tds1⟩ := r
        intro h
        simp only [] at h
        cases hw : walkT (i + 1) rest found1 tds1 with
        | error e => rw [hw] at h; simp at h
        | ok r2 =>
          obtain ⟨outs2, found2, tds2⟩ := r2
          rw [hw] at h
          simp only [Except.ok.injEq, Prod.mk.injEq] at h
          obtain ⟨h1, h2, h3⟩ := h
          subst h1
          obtain ⟨hs2, hge2⟩ := ih (i + 1) found1 tds1 outs2 found2 tds2 hw
          rw [declOrigins_append]
          constructor
          · refine sortedLe_append _ _ ?_ hs2 ?_
            · exact sortedLe_of_all_eq _ i (declOrigins_tagged outs i)
            · intro x hx y hy
              rw [declOrigins_tagged outs i x hx]
              exact le_trans (by omega) (hge2 y hy)
          · intro x hx
            rcases List.mem_append.mp hx with hx1 | hx2
            · rw [declOrigins_tagged outs i x hx1]
            · exact le_trans (by omega) (hge2 x hx2)

/-- The banner and footer of the macro-constant block carry no origins:
only the constants themselves are tagged. -/
theorem declOrigins_emitDefinesT (src : List SrcItem) :
    declOrigins (emitDefinesT src) = declOrigins (definesConsts 0 src) := by
  rw [emitDefinesT]
  by_cases he : (definesConsts 0 src).isEmpty
  · rw [if_pos he]
    rw [List.isEmpty_iff] at he
    rw [he]
  · rw [if_neg he]
    rw [declOrigins_append, declOrigins_append]
    have h1 : declOrigins [(Out.comment "#define'd integer literals:", (none : Option Nat)),
        (Out.comment "Note: some of these may have been defined with an ifdef", none)] = [] := rfl
    have h2 : declOrigins [(Out.blank, (none : Option Nat)),
        (Out.comment "End of #define'd integer literals", none), (Out.blank, none)] = [] := rfl
    rw [h1, h2]
    simp

/-!
Claim C4.  The spec says no declarations are emitted out of source
order except typedefs (emitted last, name-sorted).  But the
`#define`-derived constants are ALL emitted first — before every
AST-derived declaration — regardless of where their `#define` lines sit
in the file, so a constant whose line follows a declaration in the
source is emitted before it.
-/

/-- A two-item source: a function prototype first, then a `#define`
line.  The emitted constant precedes the emitted function declaration,
reversing their source order. -/
def src0 : List SrcItem :=
  [.astDecl (.fnDecl (.typeDecl (some "f") [] (.ident ["void"])) none),
   .textLine "#define X 1"]

/-- C4 counterexample: on `src0` the pipeline emits the constant
(source position 1) before the function (source position 0): the
non-typedef declaration origins come out as `[1, 0]`, which is out of
order, even though neither declaration is a typedef. -/
theorem c4_counterexample :
    mainT src0 [] = .ok
      [(Out.comment "#define'd integer literals:", none),
       (Out.comment "Note: some of these may have been defined with an ifdef", none),
       (Out.decl "extern const X : int;", some 1),
       (Out.blank, none),
       (Out.comment "End of #define'd integer literals", none),
       (Out.blank, none),
       (Out.decl "extern proc f() : void;\n", some 0)] ∧
    (mainT src0 []).map (fun out => declOrigins out) = .ok [1, 0] ∧
    (mainT src0 []).map (fun out => sortedLe (declOrigins out)) = .ok false := by
  refine ⟨by decide, by decide, by decide⟩

/-- C4 amended: the output is three phases in a fixed order — the
`#define` constants (in source-line order among themselves), then the
walker's declarations (in source order among themselves), then the
whole typedef pass; the typedef pass is last and is ordered by typedef
name (the split tables are traversed in `≤`-sorted key order), not by
source position, but the `#define` constants are all emitted *first*,
before every AST-derived declaration, regardless of where their lines
appear in the source. -/
theorem c4_amended (src : List SrcItem) (ignores : List String)
    (wouts : List OutT) (found : List String) (tds : Tds)
    (touts : List Out) (found2 : List String)
    (hw : walkT 0 src [] [] = .ok (wouts, found, tds))
    (ht : handleTypedefs tds ignores found = .ok (touts, found2)) :
    mainT src ignores = .ok (emitDefinesT src ++ wouts ++ touts.map (fun o => (o, none))) ∧
    sortedLe (declOrigins (emitDefinesT src)) = true ∧
    sortedLe (declOrigins wouts) = true ∧
    declOrigins (touts.map (fun o => (o, (none : Option Nat)))) = [] ∧
    List.Sorted (· ≤ ·) (sortKeys (splitIgnores tds ignores).1) ∧
    List.Sorted (· ≤ ·) (sortKeys (splitIgnores tds ignores).2) := by
  refine ⟨?_, ?_, (walkT_origins src 0 [] [] wouts found tds hw).1,
    declOrigins_untagged touts, List.sorted_insertionSort _ _, List.sorted_insertionSort _ _⟩
  · rw [mainT, hw]
    simp only []
    rw [ht]
  · rw [declOrigins_emitDefinesT]
    exact (definesConsts_origins src 0).1

/-- C4 witness: the amended ordering facts at the concrete `src0`. -/
theorem c4_witness :
    walkT 0 src0 [] [] = .ok ([(Out.decl "extern proc f() : void;\n", some 0)], [], []) ∧
    (mainT src0 [] = .ok (emitDefinesT src0 ++
        [(Out.decl "extern proc f() : void;\n", some 0)] ++
        List.map (fun o => (o, none)) []) ∧
     sortedLe (declOrigins (emitDefinesT src0)) = true ∧
     sortedLe (declOrigins [(Out.decl "extern proc f() : void;\n", some 0)]) = true ∧
     declOrigins (List.map (fun o => (o, (none : Option Nat))) []) = [] ∧
     List.Sorted (· ≤ ·) (sortKeys (splitIgnores [] []).1) ∧
     List.Sorted (· ≤ ·) (sortKeys (splitIgnores [] []).2)) := by
  refine ⟨rfl, ?_⟩
  exact c4_amended src0 [] [(Out.decl "extern proc f() : void;\n", some 0)] [] [] [] []
    rfl rfl

end C2Chapel
